import Mathlib

/-!
Verification development for the `horaedb-client-rs` response-decoding
pipeline and request gateway: schema resolution, row decoding, response
assembly and the reply-classification logic of the gRPC client.

The Rust source is embedded shallowly:
* `avro_rs::Schema` and `avro_rs::types::Value` (the external avro data
  model the client matches over) become the inductives `AvroSchema` and
  `Value`; float payloads are carried as opaque bit patterns (`Nat`)
  since the client only moves them, never computes with them.
* the external avro functions `Schema::parse_str` and `from_avro_datum`
  are parameters of the embedded functions, so every theorem quantifies
  over their behaviour.
* `&mut Row` out-parameters become explicit state passing: a function
  mutating a `Row` returns the final `Row` next to its `Result`.
-/

namespace HoraedbClient

/-- Error-message strings (`String` in the Rust source); an alias so the
name stays unambiguous next to the `String` constructors below. -/
abbrev ErrMsg := String

/-- Model of `common_types::datum::Datum` as used by the client: one tagged cell
value. `Double`/`Float` carry their IEEE bit pattern as a `Nat`;
`Timestamp` and the integers carry `Int`; `Varbinary` carries bytes. -/
inductive Datum where
  | Null
  | Timestamp (v : Int)
  | Double (bits : Nat)
  | Float (bits : Nat)
  | Varbinary (v : List Nat)
  | String (v : String)
  | Int64 (v : Int)
  | Int32 (v : Int)
  | Boolean (v : Bool)
  deriving Repr, DecidableEq

/-- Model of `avro_rs::Schema`, restricted to the payloads the client inspects:
a record keeps its field list (name, schema) in declared order plus the
library-built name-to-index `lookup` map (modelled as an association
list); the other composite constructors keep only placeholder payloads
because the client never looks inside them. -/
inductive AvroSchema where
  | null
  | boolean
  | int
  | long
  | float
  | double
  | bytes
  | string
  | timestampMillis
  | union (variants : List AvroSchema)
  | array (items : AvroSchema)
  | map (values : AvroSchema)
  | record (name : String) (fields : List (String × AvroSchema))
      (lookup : List (String × Nat))
  | enum (name : String) (symbols : List String)
  | fixed (name : String) (size : Nat)
  | decimal (precision : Nat) (scale : Nat)
  | uuid
  | date
  | timeMillis
  | timeMicros
  | timestampMicros
  | duration
  deriving Repr

/-- Model of `avro_rs::types::Value`: one decoded avro value. Payload modelling
matches `AvroSchema`; `union` wraps the inner decoded value. -/
inductive Value where
  | null
  | boolean (b : Bool)
  | int (v : Int)
  | long (v : Int)
  | float (bits : Nat)
  | double (bits : Nat)
  | bytes (v : List Nat)
  | string (v : String)
  | timestampMillis (v : Int)
  | union (inner : Value)
  | fixed (size : Nat) (v : List Nat)
  | enum (idx : Nat) (sym : String)
  | array (items : List Value)
  | map (entries : List (String × Value))
  | record (fields : List (String × Value))
  | date (v : Int)
  | decimal (v : List Nat)
  | timeMillis (v : Int)
  | timeMicros (v : Int)
  | timestampMicros (v : Int)
  | duration (months : Nat) (days : Nat) (millis : Nat)
  | uuid (s : String)
  deriving Repr

/-- Model of `model::row::ColumnDataType`: the nine supported column kinds. -/
inductive ColumnDataType where
  | Null
  | TimestampMillis
  | Double
  | Float
  | Bytes
  | String
  | Int64
  | Int32
  | Boolean
  deriving Repr, DecidableEq

/-- Embedding of `TryFrom<&avro_rs::Schema> for ColumnDataType` (`model/row.rs`):
primitives map one-to-one; a union must have exactly 2 variants with a
null first variant and resolves recursively on the second; every other
constructor is rejected. -/
def ColumnDataType.tryFrom : AvroSchema → Except ErrMsg ColumnDataType
  | .null => .ok .Null
  | .boolean => .ok .Boolean
  | .int => .ok .Int32
  | .long => .ok .Int64
  | .float => .ok .Float
  | .double => .ok .Double
  | .bytes => .ok .Bytes
  | .string => .ok .String
  | .timestampMillis => .ok .TimestampMillis
  | .union variants =>
    match variants with
    | [v0, v1] =>
      match v0 with
      | .null => ColumnDataType.tryFrom v1
      | _ => .error "invalid avro union schema, expect the first column is null"
    | _ => .error "invalid avro union schema, expect at least two columns"
  | .array _ => .error "invalid avro basic schema"
  | .map _ => .error "invalid avro basic schema"
  | .record _ _ _ => .error "invalid avro basic schema"
  | .enum _ _ => .error "invalid avro basic schema"
  | .fixed _ _ => .error "invalid avro basic schema"
  | .decimal _ _ => .error "invalid avro basic schema"
  | .uuid => .error "invalid avro basic schema"
  | .date => .error "invalid avro basic schema"
  | .timeMillis => .error "invalid avro basic schema"
  | .timeMicros => .error "invalid avro basic schema"
  | .timestampMicros => .error "invalid avro basic schema"
  | .duration => .error "invalid avro basic schema"

example : ColumnDataType.tryFrom (.union [.null, .long]) = .ok .Int64 := by rfl

example : ColumnDataType.tryFrom (.union [.null, .union [.null, .long]]) = .ok .Int64 := by rfl

example : ColumnDataType.tryFrom (.union [.long, .null]) =
    .error "invalid avro union schema, expect the first column is null" := by rfl

/-- Model of `model::row::Row`: the ordered datum sequence of one decoded row. -/
structure Row where
  datums : List Datum
  deriving Repr, DecidableEq

/-- Embedding of `Row::with_column_num` (`model/row.rs`): a fresh row; the argument
only pre-sizes the Rust vector's capacity, so the datum list is empty. -/
def Row.with_column_num (_n : Nat) : Row :=
  { datums := [] }

/-- Model of `model::row::ColumnSchema`. -/
structure ColumnSchema where
  data_type : ColumnDataType
  name : String
  deriving Repr, DecidableEq

/-- The name-to-index association of `avro_rs`' record `lookup`
(`HashMap<String, usize>` in Rust): first matching key wins. -/
def lkFind (lookup : List (String × Nat)) (name : String) : Option Nat :=
  match lookup with
  | [] => none
  | (k, v) :: rest => if k = name then some v else lkFind rest name

/-- Model of `model::row::Schema`: ordered column schemas plus the cloned
name-to-index lookup. -/
structure Schema where
  column_schemas : List ColumnSchema
  lookup : List (String × Nat)
  deriving Repr, DecidableEq

/-- Embedding of `Schema::default()`: empty columns, empty lookup. -/
def Schema.default : Schema :=
  { column_schemas := [], lookup := [] }

/-- Embedding of `Schema::num_cols`. -/
def Schema.num_cols (s : Schema) : Nat :=
  s.column_schemas.length

/-- Embedding of `Schema::col_idx`. -/
def Schema.col_idx (s : Schema) (name : String) : Option Nat :=
  lkFind s.lookup name

/-- The field loop of `TryFrom<&avro_rs::Schema> for Schema`: resolve
each field's `ColumnDataType` in declared order, keeping its name;
the first resolution failure aborts. -/
def buildColumnSchemas : List (String × AvroSchema) → Except ErrMsg (List ColumnSchema)
  | [] => .ok []
  | field :: rest =>
    match ColumnDataType.tryFrom field.2 with
    | .error e => .error e
    | .ok dt =>
      match buildColumnSchemas rest with
      | .error e => .error e
      | .ok cs => .ok ({ data_type := dt, name := field.1 } :: cs)

/-- Embedding of `TryFrom<&avro_rs::Schema> for Schema` (`model/row.rs`): the top
level must be a record; columns are resolved in declared field order and
the record's lookup map is cloned. -/
def Schema.tryFromAvro : AvroSchema → Except ErrMsg Schema
  | .record _name fields lookup =>
    match buildColumnSchemas fields with
    | .error e => .error e
    | .ok column_schemas => .ok { column_schemas := column_schemas, lookup := lookup }
  | _ => .error "Unsupported schema"

/-- Embedding of `model::convert::value_to_datum`: convert one avro `Value` into a
`Datum`; unions recursively convert the inner value; every composite
value kind is an error. -/
def value_to_datum : Value → Except ErrMsg Datum
  | .null => .ok .Null
  | .timestampMillis v => .ok (.Timestamp v)
  | .double v => .ok (.Double v)
  | .float v => .ok (.Float v)
  | .bytes v => .ok (.Varbinary v)
  | .string v => .ok (.String v)
  | .long v => .ok (.Int64 v)
  | .int v => .ok (.Int32 v)
  | .boolean v => .ok (.Boolean v)
  | .union inner => value_to_datum inner
  | .fixed _ _ => .error "Unsupported value type"
  | .enum _ _ => .error "Unsupported value type"
  | .array _ => .error "Unsupported value type"
  | .map _ => .error "Unsupported value type"
  | .record _ => .error "Unsupported value type"
  | .date _ => .error "Unsupported value type"
  | .decimal _ => .error "Unsupported value type"
  | .timeMillis _ => .error "Unsupported value type"
  | .timeMicros _ => .error "Unsupported value type"
  | .timestampMicros _ => .error "Unsupported value type"
  | .duration _ _ _ => .error "Unsupported value type"
  | .uuid _ => .error "Unsupported value type"

/-- The column loop of `parse_one_row`: convert each column value and
push the datum onto the row. On a conversion failure the loop stops at
once; datums pushed by earlier iterations stay in the row state. -/
def pushDatums : List (String × Value) → Row → Except ErrMsg Unit × Row
  | [], row => (.ok (), row)
  | (_, column_value) :: rest, row =>
    match value_to_datum column_value with
    | .error e => (.error e, row)
    | .ok datum => pushDatums rest { datums := row.datums ++ [datum] }

/-- Embedding of `model::convert::parse_one_row`: decode one raw buffer with the
external `from_avro_datum` (passed in as a function), require a record
value, and push one datum per column into the `&mut Row` out-parameter.
The returned pair is (the Rust `Result<(), String>`, the final state of
the out-parameter). -/
def parse_one_row (from_avro_datum : AvroSchema → List Nat → Except ErrMsg Value)
    (schema : AvroSchema) (raw : List Nat) (row : Row) : Except ErrMsg Unit × Row :=
  match from_avro_datum schema raw with
  | .error e => (.error e, row)
  | .ok (.record cols) => pushDatums cols row
  | .ok _ => (.error "invalid avro row, expect record", row)

/-- Model of `errors::ServerError` (crate `errors` module; the struct shape is
shown by its uses in `rpc_client.rs`: a code and a message). -/
structure ServerError where
  code : Nat
  msg : String
  deriving Repr, DecidableEq

/-- Model of the `errors::Error` variants as used by `rpc_client.rs` and
`model/row.rs`: `Server` for reply-header errors, `Client` for local /
transport-side failures, `Unknown` for schema/decode failures surfaced
through `TryFrom<QueryResponsePb>`. -/
inductive Error where
  | Server (e : ServerError)
  | Client (msg : String)
  | Unknown (msg : String)
  deriving Repr, DecidableEq

/-- Modelled from the spec: the header code space of `errors::is_ok`
(the `errors` module is not under `src/`). "Header code space: one
reserved ok value; every other value is a server error paired with a
message" — 200 stands for the single reserved ok value. -/
def ok_code : Nat := 200

/-- Modelled from the spec: `errors::is_ok` — true exactly on the single
reserved ok value. -/
def is_ok (code : Nat) : Bool :=
  code = ok_code

/-- Wire reply header (`header{code, error message}` of the reply shapes
in the proto crate). -/
structure ResponseHeader where
  code : Nat
  error : String
  deriving Repr, DecidableEq

/-- Model of `ceresdbproto::storage::QueryResponse` (the wire reply): header,
schema text, raw row buffers, affected-row count. -/
structure QueryResponsePb where
  header : ResponseHeader
  schema_content : String
  rows : List (List Nat)
  affected_rows : Nat
  deriving Repr, DecidableEq

/-- Model of `model::row::QueryResponse`: the caller-facing assembled response. -/
structure QueryResponse where
  schema : Schema
  rows : List Row
  affected_rows : Nat
  deriving Repr, DecidableEq

/-- Embedding of `QueryResponse::with_capacity`: schema set, no rows yet,
`affected_rows` zero. -/
def QueryResponse.with_capacity (schema : Schema) (_n : Nat) : QueryResponse :=
  { schema := schema, affected_rows := 0, rows := [] }

/-- Embedding of `QueryResponse::has_schema`. -/
def QueryResponse.has_schema (r : QueryResponse) : Bool :=
  !r.schema.column_schemas.isEmpty

/-- The row loop of `TryFrom<QueryResponsePb> for QueryResponse`: decode
every raw buffer in input order against the single parsed avro schema,
each into a fresh row; the first failure aborts the whole loop. -/
def assemble_rows (from_avro_datum : AvroSchema → List Nat → Except ErrMsg Value)
    (avro_schema : AvroSchema) (num_cols : Nat) :
    List (List Nat) → Except Error (List Row)
  | [] => .ok []
  | raw_row :: rest =>
    match parse_one_row from_avro_datum avro_schema raw_row (Row.with_column_num num_cols) with
    | (.error e, _) => .error (.Unknown e)
    | (.ok _, row) =>
      match assemble_rows from_avro_datum avro_schema num_cols rest with
      | .error e => .error e
      | .ok rows => .ok (row :: rows)

/-- Embedding of `TryFrom<QueryResponsePb> for QueryResponse` (`model/row.rs`):
empty `schema_content` short-circuits to an empty response carrying
`affected_rows`; otherwise the schema text is parsed once (external
`AvroSchema::parse_str`, passed in as `parse_str`), resolved into a
`Schema`, and every row buffer is decoded against it. -/
def queryResponseTryFrom
    (parse_str : String → Except ErrMsg AvroSchema)
    (from_avro_datum : AvroSchema → List Nat → Except ErrMsg Value)
    (pb_resp : QueryResponsePb) : Except Error QueryResponse :=
  if pb_resp.schema_content = "" then
    .ok { schema := Schema.default, rows := [], affected_rows := pb_resp.affected_rows }
  else
    match parse_str pb_resp.schema_content with
    | .error e => .error (.Unknown e)
    | .ok avro_schema =>
      match Schema.tryFromAvro avro_schema with
      | .error e => .error (.Unknown e)
      | .ok schema =>
        match assemble_rows from_avro_datum avro_schema schema.num_cols pb_resp.rows with
        | .error e => .error e
        | .ok rows =>
          .ok { QueryResponse.with_capacity schema pb_resp.rows.length with rows := rows }

/-- One entry of the wire write request
(`ceresdbproto::storage::WriteMetric`): the fields beyond the metric
name are never read by the client, so only `metric` is modelled. -/
structure WriteMetricPb where
  metric : String
  deriving Repr, DecidableEq

/-- Model of `ceresdbproto::storage::WriteRequest` (the wire write request), as
read by `RpcClient::write`: its list of metric entries. -/
structure WriteRequestPb where
  metrics : List WriteMetricPb
  deriving Repr, DecidableEq

/-- Model of `ceresdbproto::storage::WriteResponse` (the wire write reply):
header plus success and failed counts — it carries no metric list. -/
structure WriteResponsePb where
  header : ResponseHeader
  success : Nat
  failed : Nat
  deriving Repr, DecidableEq

/-- Modelled from the spec: `model::write::WriteResult` (the
`model/write.rs` file is not under `src/`): "{metrics: sequence of
string, success: count, failed: count}". -/
structure WriteResult where
  metrics : List String
  success : Nat
  failed : Nat
  deriving Repr, DecidableEq

/-- The reply-classification and assembly stage of `RpcClient::query`
(`rpc_client.rs`), from the awaited wire reply onward: a non-ok header
code yields `Error::Server` with that header's code and message; an
empty `schema_content` yields the default response carrying
`affected_rows`; otherwise `convert::parse_queried_rows` (repo code not
under `src/`, passed in as `pq`) assembles the response, its error
mapped to `Error::Client`. -/
def query_handle (pq : String → List (List Nat) → Except ErrMsg QueryResponse)
    (resp : QueryResponsePb) : Except Error QueryResponse :=
  if ¬ is_ok resp.header.code then
    .error (.Server { code := resp.header.code, msg := resp.header.error })
  else if resp.schema_content = "" then
    .ok { schema := Schema.default, rows := [], affected_rows := resp.affected_rows }
  else
    match pq resp.schema_content resp.rows with
    | .error e => .error (.Client e)
    | .ok r => .ok r

/-- The reply-classification and reshaping stage of `RpcClient::write`
(`rpc_client.rs`), from the awaited wire reply onward: a non-ok header
code yields `Error::Server` with that header's code and message;
otherwise the result takes its metric names from the request entries (in
request order) and its counts from the reply. -/
def write_handle (req_pb : WriteRequestPb) (resp : WriteResponsePb) :
    Except Error WriteResult :=
  if ¬ is_ok resp.header.code then
    .error (.Server { code := resp.header.code, msg := resp.header.error })
  else
    .ok { metrics := req_pb.metrics.map (fun e => e.metric),
          success := resp.success,
          failed := resp.failed }

/-- The composite schema kinds: exactly the constructors rejected by the
final arm of `ColumnDataType.tryFrom`. -/
def AvroSchema.isComposite : AvroSchema → Bool
  | .array _ => true
  | .map _ => true
  | .record _ _ _ => true
  | .enum _ _ => true
  | .fixed _ _ => true
  | .decimal _ _ => true
  | .uuid => true
  | .date => true
  | .timeMillis => true
  | .timeMicros => true
  | .timestampMicros => true
  | .duration => true
  | _ => false

/-- The composite value kinds: exactly the constructors rejected by the
final arm of `value_to_datum`. -/
def Value.isComposite : Value → Bool
  | .fixed _ _ => true
  | .enum _ _ => true
  | .array _ => true
  | .map _ => true
  | .record _ => true
  | .date _ => true
  | .decimal _ => true
  | .timeMillis _ => true
  | .timeMicros _ => true
  | .timestampMicros _ => true
  | .duration _ _ _ => true
  | .uuid _ => true
  | _ => false

/-- The signed (two's-complement) reading of a 64-bit wire word: how an
unsigned 64-bit server value surfaces once it has travelled through the
signed-64 wire kind (the `FIXME` in `model/convert.rs`: the server puts
both uint64 and int64 into `Value::Long`). -/
def toSigned64 (w : Nat) : Int :=
  if w < 2 ^ 63 then (w : Int) else (w : Int) - 2 ^ 64

/-! ### Helper lemmas -/

/-- Every composite value kind is rejected by `value_to_datum`. -/
theorem value_to_datum_composite_error (v : Value) (h : v.isComposite = true) :
    value_to_datum v = .error "Unsupported value type" := by
  cases v <;> first | rfl | simp [Value.isComposite] at h

/-- Every composite schema kind is rejected by `ColumnDataType.tryFrom`. -/
theorem tryFrom_composite_error (s : AvroSchema) (h : s.isComposite = true) :
    ColumnDataType.tryFrom s = .error "invalid avro basic schema" := by
  cases s <;> first | rfl | simp [AvroSchema.isComposite] at h

/-- A successful `pushDatums` run appends exactly one converted datum
per column, in column order. -/
theorem pushDatums_ok :
    ∀ (cols : List (String × Value)) (row r : Row),
      pushDatums cols row = (.ok (), r) →
      ∃ ds, r.datums = row.datums ++ ds ∧ ds.length = cols.length ∧
        ∀ j (hj : j < cols.length) (hj2 : j < ds.length),
          value_to_datum ((cols.get ⟨j, hj⟩).2) = .ok (ds.get ⟨j, hj2⟩) := by
  intro cols
  induction cols with
  | nil =>
    intro row r h
    simp only [pushDatums, Prod.mk.injEq] at h
    refine ⟨[], by simp [← h.2], rfl, ?_⟩
    intro j hj
    exact absurd hj (Nat.not_lt_zero j)
  | cons c rest ih =>
    intro row r h
    obtain ⟨nm, v⟩ := c
    simp only [pushDatums] at h
    rcases hval : value_to_datum v with e | d
    · rw [hval] at h
      exact absurd h (by simp)
    · rw [hval] at h
      obtain ⟨ds, hds, hlen, halign⟩ := ih { datums := row.datums ++ [d] } r h
      refine ⟨d :: ds, by simpa using hds, by simpa using hlen, ?_⟩
      intro j hj hj2
      cases j with
      | zero => simpa using hval
      | succ j =>
        exact halign j (by simpa using hj) (by simpa using hj2)

/-- If any column value is composite, `pushDatums` fails, whatever the
incoming row state. -/
theorem pushDatums_err :
    ∀ (cols : List (String × Value)), (∃ c ∈ cols, c.2.isComposite = true) →
      ∀ row, ∃ e r, pushDatums cols row = (.error e, r) := by
  intro cols
  induction cols with
  | nil => intro h; simp at h
  | cons c rest ih =>
    intro h row
    obtain ⟨c', hc', hcomp⟩ := h
    rcases hval : value_to_datum c.2 with e | d
    · refine ⟨e, row, ?_⟩
      obtain ⟨nm, v⟩ := c
      simp only [pushDatums]
      rw [hval]
    · rcases List.mem_cons.1 hc' with hhd | htl
      · rw [hhd] at hcomp
        rw [value_to_datum_composite_error c.2 hcomp] at hval
        exact absurd hval (by simp)
      · obtain ⟨e, r, hr⟩ := ih ⟨c', htl, hcomp⟩ { datums := row.datums ++ [d] }
        refine ⟨e, r, ?_⟩
        obtain ⟨nm, v⟩ := c
        simp only [pushDatums]
        rw [hval]
        exact hr

/-- A successful `parse_one_row` means the external decoder produced a
record and every column converted. -/
theorem parse_one_row_ok {fad : AvroSchema → List Nat → Except ErrMsg Value}
    {aS : AvroSchema} {raw : List Nat} {row0 r : Row}
    (h : parse_one_row fad aS raw row0 = (.ok (), r)) :
    ∃ cols, fad aS raw = .ok (.record cols) ∧ pushDatums cols row0 = (.ok (), r) := by
  unfold parse_one_row at h
  rcases hdec : fad aS raw with e | v
  · rw [hdec] at h
    exact absurd h (by simp)
  · rw [hdec] at h
    cases v
    case record cols => exact ⟨cols, rfl, by simpa using h⟩
    all_goals simp at h

/-- A successful `assemble_rows` run yields one row per buffer: output
row `i` is exactly the decode of input buffer `i` from a fresh row. -/
theorem assemble_rows_ok (fad : AvroSchema → List Nat → Except ErrMsg Value)
    (aS : AvroSchema) (n : Nat) :
    ∀ (raws : List (List Nat)) (rows : List Row),
      assemble_rows fad aS n raws = .ok rows →
      rows.length = raws.length ∧
      ∀ i (h1 : i < raws.length) (h2 : i < rows.length),
        parse_one_row fad aS (raws.get ⟨i, h1⟩) (Row.with_column_num n)
          = (.ok (), rows.get ⟨i, h2⟩) := by
  intro raws
  induction raws with
  | nil =>
    intro rows h
    simp only [assemble_rows] at h
    injection h with h
    subst h
    exact ⟨rfl, fun i h1 => absurd h1 (by simp)⟩
  | cons raw rest ih =>
    intro rows h
    simp only [assemble_rows] at h
    rcases hp : parse_one_row fad aS raw (Row.with_column_num n) with ⟨res, row⟩
    rw [hp] at h
    cases res with
    | error e => exact absurd h (by simp)
    | ok u =>
      rcases hrest : assemble_rows fad aS n rest with e | rows'
      · rw [hrest] at h
        exact absurd h (by simp)
      · rw [hrest] at h
        simp at h
        subst h
        obtain ⟨hlen, halign⟩ := ih rows' hrest
        refine ⟨by simp [hlen], ?_⟩
        intro i h1 h2
        cases i with
        | zero =>
          cases u
          exact hp
        | succ i =>
          have h1' : i < rest.length := by simpa using h1
          have h2' : i < rows'.length := by
            rw [hlen]; exact h1'
          exact halign i h1' h2'

/-- If decoding one of the buffers fails (from a fresh row), the whole
row loop fails. -/
theorem assemble_rows_err (fad : AvroSchema → List Nat → Except ErrMsg Value)
    (aS : AvroSchema) (n : Nat) (raw : List Nat) (e0 : ErrMsg)
    (hfail : (parse_one_row fad aS raw (Row.with_column_num n)).1 = .error e0) :
    ∀ raws : List (List Nat), raw ∈ raws →
      ∃ e, assemble_rows fad aS n raws = .error e := by
  intro raws
  induction raws with
  | nil => intro h; simp at h
  | cons a rest ih =>
    intro hmem
    rcases hp : parse_one_row fad aS a (Row.with_column_num n) with ⟨res, row⟩
    cases res with
    | error e =>
      refine ⟨.Unknown e, ?_⟩
      simp only [assemble_rows]
      rw [hp]
    | ok u =>
      rcases List.mem_cons.1 hmem with hhd | htl
      · rw [← hhd] at hp
        rw [hp] at hfail
        exact absurd hfail (by simp)
      · obtain ⟨e, he⟩ := ih htl
        refine ⟨e, ?_⟩
        simp only [assemble_rows]
        rw [hp]
        cases u
        rw [he]

/-- Every row of a successful `assemble_rows` run is the full decode of
one of the input buffers. -/
theorem assemble_rows_mem (fad : AvroSchema → List Nat → Except ErrMsg Value)
    (aS : AvroSchema) (n : Nat) :
    ∀ (raws : List (List Nat)) (rows : List Row),
      assemble_rows fad aS n raws = .ok rows →
      ∀ r ∈ rows, ∃ raw ∈ raws,
        parse_one_row fad aS raw (Row.with_column_num n) = (.ok (), r) := by
  intro raws
  induction raws with
  | nil =>
    intro rows h r hr
    simp only [assemble_rows] at h
    injection h with h
    subst h
    simp at hr
  | cons raw rest ih =>
    intro rows h r hr
    simp only [assemble_rows] at h
    rcases hp : parse_one_row fad aS raw (Row.with_column_num n) with ⟨res, row⟩
    rw [hp] at h
    cases res with
    | error e => exact absurd h (by simp)
    | ok u =>
      rcases hrest : assemble_rows fad aS n rest with e | rows'
      · rw [hrest] at h
        exact absurd h (by simp)
      · rw [hrest] at h
        simp at h
        subst h
        rcases List.mem_cons.1 hr with hhd | htl
        · cases u
          exact ⟨raw, List.mem_cons_self raw rest, by rw [hp, hhd]⟩
        · obtain ⟨raw', hraw', hparse⟩ := ih rows' hrest r htl
          exact ⟨raw', List.mem_cons_of_mem raw hraw', hparse⟩

/-- A successful column-schema build has one column per field, keeping
each field's name at its index. -/
theorem buildColumnSchemas_ok :
    ∀ (fields : List (String × AvroSchema)) (cs : List ColumnSchema),
      buildColumnSchemas fields = .ok cs →
      cs.length = fields.length ∧
      ∀ i (h1 : i < fields.length) (h2 : i < cs.length),
        (cs.get ⟨i, h2⟩).name = (fields.get ⟨i, h1⟩).1 := by
  intro fields
  induction fields with
  | nil =>
    intro cs h
    simp only [buildColumnSchemas] at h
    injection h with h
    subst h
    exact ⟨rfl, fun i h1 => absurd h1 (by simp)⟩
  | cons f rest ih =>
    intro cs h
    simp only [buildColumnSchemas] at h
    rcases hdt : ColumnDataType.tryFrom f.2 with e | dt
    · rw [hdt] at h
      exact absurd h (by simp)
    · rw [hdt] at h
      rcases hrest : buildColumnSchemas rest with e | cs'
      · rw [hrest] at h
        exact absurd h (by simp)
      · rw [hrest] at h
        simp at h
        subst h
        obtain ⟨hlen, hnames⟩ := ih cs' hrest
        refine ⟨by simp [hlen], ?_⟩
        intro i h1 h2
        cases i with
        | zero => rfl
        | succ i =>
          have h1' : i < rest.length := by simpa using h1
          have h2' : i < cs'.length := by rw [hlen]; exact h1'
          simpa using hnames i h1' h2'

/-- A field of composite kind makes the column-schema build fail. -/
theorem buildColumnSchemas_err :
    ∀ fields : List (String × AvroSchema), (∃ f ∈ fields, f.2.isComposite = true) →
      ∃ e, buildColumnSchemas fields = .error e := by
  intro fields
  induction fields with
  | nil => intro h; simp at h
  | cons f rest ih =>
    intro h
    obtain ⟨f', hf', hcomp⟩ := h
    rcases hdt : ColumnDataType.tryFrom f.2 with e | dt
    · refine ⟨e, ?_⟩
      simp only [buildColumnSchemas]
      rw [hdt]
    · rcases List.mem_cons.1 hf' with hhd | htl
      · rw [hhd] at hcomp
        rw [tryFrom_composite_error f.2 hcomp] at hdt
        exact absurd hdt (by simp)
      · obtain ⟨e, he⟩ := ih ⟨f', htl, hcomp⟩
        refine ⟨e, ?_⟩
        simp only [buildColumnSchemas]
        rw [hdt, he]

/-- Shape of a successfully resolved record schema: lookup cloned,
column count equals field count, names kept in order. -/
theorem tryFromAvro_record_ok {nm : String} {fs : List (String × AvroSchema)}
    {lk : List (String × Nat)} {sch : Schema}
    (h : Schema.tryFromAvro (.record nm fs lk) = .ok sch) :
    sch.lookup = lk ∧ sch.num_cols = fs.length ∧
      buildColumnSchemas fs = .ok sch.column_schemas ∧
      ∀ i (h1 : i < fs.length) (h2 : i < sch.num_cols),
        (sch.column_schemas.get ⟨i, h2⟩).name = (fs.get ⟨i, h1⟩).1 := by
  simp only [Schema.tryFromAvro] at h
  rcases hb : buildColumnSchemas fs with e | cs
  · rw [hb] at h
    exact absurd h (by simp)
  · rw [hb] at h
    obtain ⟨hlen, hnames⟩ := buildColumnSchemas_ok fs cs hb
    have hsch : sch = { column_schemas := cs, lookup := lk } := by
      simp at h
      exact h.symm
    subst hsch
    exact ⟨rfl, hlen, rfl, fun i h1 h2 => hnames i h1 h2⟩

/-- Characterisation of a successful assembly on a non-empty
`schema_content`: the schema text parses, resolves, and every row
buffer decodes; the result carries the assembled rows and a zero
`affected_rows` (inherited from `QueryResponse::with_capacity`). -/
theorem queryResponseTryFrom_ok
    {ps : String → Except ErrMsg AvroSchema}
    {fad : AvroSchema → List Nat → Except ErrMsg Value}
    {pb : QueryResponsePb} {resp : QueryResponse}
    (hne : ¬ pb.schema_content = "")
    (h : queryResponseTryFrom ps fad pb = .ok resp) :
    ∃ aS, ps pb.schema_content = .ok aS ∧
      Schema.tryFromAvro aS = .ok resp.schema ∧
      assemble_rows fad aS resp.schema.num_cols pb.rows = .ok resp.rows ∧
      resp.affected_rows = 0 := by
  unfold queryResponseTryFrom at h
  rw [if_neg hne] at h
  split at h
  · exact absurd h (by simp)
  · rename_i aS hps
    split at h
    · exact absurd h (by simp)
    · rename_i sch hsch
      split at h
      · exact absurd h (by simp)
      · rename_i rows hrows
        injection h with h
        subst h
        exact ⟨aS, hps, hsch, hrows, rfl⟩

/-! ### Claim theorems -/

/-- C1: a reply (query or write) whose header code is not the reserved
ok value yields `Error::Server` carrying exactly that code and message,
whatever the rest of the reply contains and whatever the downstream
parser would do: the classification precedes any other field. -/
theorem header_error_classified_first :
    (∀ (pq : String → List (List Nat) → Except ErrMsg QueryResponse)
       (resp : QueryResponsePb), is_ok resp.header.code = false →
       query_handle pq resp =
         .error (.Server { code := resp.header.code, msg := resp.header.error })) ∧
    (∀ (req_pb : WriteRequestPb) (resp : WriteResponsePb),
       is_ok resp.header.code = false →
       write_handle req_pb resp =
         .error (.Server { code := resp.header.code, msg := resp.header.error })) := by
  constructor
  · intro pq resp h
    simp [query_handle, h]
  · intro req_pb resp h
    simp [write_handle, h]

/-- Witness for C1: a header code 500 with message "overloaded", on a
reply that even carries a schema and rows, is classified as that exact
server error by both operations. -/
theorem header_error_classified_first_witness :
    query_handle (fun _ _ => .ok { schema := Schema.default, rows := [], affected_rows := 3 })
        { header := { code := 500, error := "overloaded" },
          schema_content := "sc", rows := [[1, 2]], affected_rows := 9 } =
      .error (.Server { code := 500, msg := "overloaded" }) ∧
    write_handle { metrics := [{ metric := "cpu" }] }
        { header := { code := 500, error := "overloaded" }, success := 1, failed := 0 } =
      .error (.Server { code := 500, msg := "overloaded" }) :=
  ⟨header_error_classified_first.1
      (fun _ _ => .ok { schema := Schema.default, rows := [], affected_rows := 3 })
      { header := { code := 500, error := "overloaded" },
        schema_content := "sc", rows := [[1, 2]], affected_rows := 9 } (by decide),
   header_error_classified_first.2 { metrics := [{ metric := "cpu" }] }
      { header := { code := 500, error := "overloaded" }, success := 1, failed := 0 }
      (by decide)⟩

/-- C3: a reply with empty `schema_content` assembles immediately into
a response with the empty default schema, no rows, and the input's
`affected_rows` — both in `TryFrom<QueryResponsePb>` and in the
ok-header branch of `RpcClient::query`. -/
theorem empty_schema_content_short_circuit :
    (∀ (ps : String → Except ErrMsg AvroSchema)
       (fad : AvroSchema → List Nat → Except ErrMsg Value)
       (pb : QueryResponsePb), pb.schema_content = "" →
       queryResponseTryFrom ps fad pb =
         .ok { schema := Schema.default, rows := [], affected_rows := pb.affected_rows }) ∧
    (∀ (pq : String → List (List Nat) → Except ErrMsg QueryResponse)
       (resp : QueryResponsePb),
       is_ok resp.header.code = true → resp.schema_content = "" →
       query_handle pq resp =
         .ok { schema := Schema.default, rows := [], affected_rows := resp.affected_rows }) := by
  constructor
  · intro ps fad pb h
    simp [queryResponseTryFrom, h]
  · intro pq resp hok h
    simp [query_handle, hok, h]

/-- Witness for C3 (the spec scenario): empty schema text and
`affected_rows = 5` give the empty response carrying 5. -/
theorem empty_schema_content_short_circuit_witness :
    queryResponseTryFrom (fun _ => .error "no parse") (fun _ _ => .error "no decode")
        { header := { code := 200, error := "" },
          schema_content := "", rows := [], affected_rows := 5 } =
      .ok { schema := Schema.default, rows := [], affected_rows := 5 } ∧
    query_handle (fun _ _ => .error "no parse")
        { header := { code := 200, error := "" },
          schema_content := "", rows := [], affected_rows := 5 } =
      .ok { schema := Schema.default, rows := [], affected_rows := 5 } :=
  ⟨empty_schema_content_short_circuit.1 (fun _ => .error "no parse")
      (fun _ _ => .error "no decode")
      { header := { code := 200, error := "" },
        schema_content := "", rows := [], affected_rows := 5 } rfl,
   empty_schema_content_short_circuit.2 (fun _ _ => .error "no parse")
      { header := { code := 200, error := "" },
        schema_content := "", rows := [], affected_rows := 5 } rfl rfl⟩

/-- C4: the column type resolver maps a 2-branch union with a null
first branch to the resolution of the second branch (one unwrap per
recursive call), and rejects any union whose branch count is not 2 or
whose first branch is not null. -/
theorem union_resolution_rule :
    (∀ v1 : AvroSchema,
       ColumnDataType.tryFrom (.union [.null, v1]) = ColumnDataType.tryFrom v1) ∧
    (∀ vs : List AvroSchema, vs.length ≠ 2 →
       ColumnDataType.tryFrom (.union vs) =
         .error "invalid avro union schema, expect at least two columns") ∧
    (∀ v0 v1 : AvroSchema, v0 ≠ .null →
       ColumnDataType.tryFrom (.union [v0, v1]) =
         .error "invalid avro union schema, expect the first column is null") := by
  refine ⟨fun v1 => rfl, ?_, ?_⟩
  · intro vs h
    match vs with
    | [] => rfl
    | [a] => rfl
    | [a, b] => exact absurd rfl h
    | a :: b :: c :: t => rfl
  · intro v0 v1 h
    cases v0 <;> first | exact absurd rfl h | rfl

/-- Witness for C4: a nullable long resolves like a long; a 1-branch
union and a union with a non-null first branch are rejected. -/
theorem union_resolution_rule_witness :
    ColumnDataType.tryFrom (.union [.null, .long]) = ColumnDataType.tryFrom .long ∧
    ColumnDataType.tryFrom (.union [.null]) =
      .error "invalid avro union schema, expect at least two columns" ∧
    ColumnDataType.tryFrom (.union [.boolean, .long]) =
      .error "invalid avro union schema, expect the first column is null" :=
  ⟨union_resolution_rule.1 .long,
   union_resolution_rule.2.1 [.null] (by decide),
   union_resolution_rule.2.2 .boolean .long (fun hh => AvroSchema.noConfusion hh)⟩

/-- C8: a decoded 64-bit integer wire word always surfaces as
`Datum::Int64` under the signed (two's-complement) reading; a word in
the unsigned-only range is not rejected — it decodes, as the negative
signed reinterpretation, which differs from the unsigned value. -/
theorem long_decode_signed_reinterpretation :
    ∀ w : Nat, w < 2 ^ 64 →
      value_to_datum (.long (toSigned64 w)) = .ok (.Int64 (toSigned64 w)) ∧
      (2 ^ 63 ≤ w → toSigned64 w ≠ (w : Int)) := by
  intro w hw
  refine ⟨rfl, fun hge => ?_⟩
  simp only [toSigned64, if_neg (Nat.not_lt.2 hge)]
  omega

/-- Witness for C8 at `w = 2^63`, the smallest unsigned-only word: it
decodes (to a negative `Int64`) instead of matching its unsigned value. -/
theorem long_decode_signed_reinterpretation_witness :
    value_to_datum (.long (toSigned64 (2 ^ 63))) = .ok (.Int64 (toSigned64 (2 ^ 63))) ∧
    toSigned64 (2 ^ 63) ≠ ((2 ^ 63 : Nat) : Int) :=
  ⟨(long_decode_signed_reinterpretation (2 ^ 63) (by decide)).1,
   (long_decode_signed_reinterpretation (2 ^ 63) (by decide)).2 (by decide)⟩

/-- C10: a write reply with ok header reshapes into a `WriteResult`
whose counts come from the reply and whose metric list is the metric
name of each request entry, in request order (the wire write reply
carries no metric list at all). -/
theorem write_result_metrics_from_request :
    ∀ (req_pb : WriteRequestPb) (resp : WriteResponsePb),
      is_ok resp.header.code = true →
      write_handle req_pb resp =
        .ok { metrics := req_pb.metrics.map (fun e => e.metric),
              success := resp.success, failed := resp.failed } := by
  intro req_pb resp h
  simp [write_handle, h]

/-- Witness for C10: two request entries, counts 2/1 from the reply. -/
theorem write_result_metrics_from_request_witness :
    write_handle { metrics := [{ metric := "cpu" }, { metric := "mem" }] }
        { header := { code := 200, error := "" }, success := 2, failed := 1 } =
      .ok { metrics := ["cpu", "mem"], success := 2, failed := 1 } :=
  write_result_metrics_from_request
    { metrics := [{ metric := "cpu" }, { metric := "mem" }] }
    { header := { code := 200, error := "" }, success := 2, failed := 1 } rfl

/-- C6: a structural schema with a composite-kind field is rejected
during schema resolution: the assembly fails with the resolution error
whatever the row decoder would do — no row buffer is ever decoded
(the outcome is one fixed error, independent of `fad`). -/
theorem composite_field_rejected_before_decode
    (ps : String → Except ErrMsg AvroSchema) (pb : QueryResponsePb)
    (nm : String) (fs : List (String × AvroSchema)) (lk : List (String × Nat))
    (hne : ¬ pb.schema_content = "")
    (hps : ps pb.schema_content = .ok (.record nm fs lk))
    (hcomp : ∃ f ∈ fs, f.2.isComposite = true) :
    ∃ e, ∀ fad : AvroSchema → List Nat → Except ErrMsg Value,
      queryResponseTryFrom ps fad pb = .error (.Unknown e) := by
  obtain ⟨e, he⟩ := buildColumnSchemas_err fs hcomp
  refine ⟨e, fun fad => ?_⟩
  have hsch : Schema.tryFromAvro (.record nm fs lk) = .error e := by
    simp [Schema.tryFromAvro, he]
  simp [queryResponseTryFrom, hne, hps, hsch]

/-- Witness for C6: a record with an array-typed field, with two row
buffers present, is rejected with one fixed resolution error whatever
the decoder. -/
theorem composite_field_rejected_before_decode_witness :
    ∃ e, ∀ fad : AvroSchema → List Nat → Except ErrMsg Value,
      queryResponseTryFrom
          (fun _ => .ok (.record "t" [("xs", .array .long)] [("xs", 0)])) fad
          { header := { code := 200, error := "" },
            schema_content := "sc", rows := [[0], [1]], affected_rows := 0 } =
        .error (.Unknown e) :=
  composite_field_rejected_before_decode
    (fun _ => .ok (.record "t" [("xs", .array .long)] [("xs", 0)]))
    { header := { code := 200, error := "" },
      schema_content := "sc", rows := [[0], [1]], affected_rows := 0 }
    "t" [("xs", .array .long)] [("xs", 0)]
    (by simp) rfl ⟨("xs", .array .long), by simp, rfl⟩

/-- C7: on a non-empty `schema_content`, if decoding any one of the row
buffers fails, the whole assembly returns an error — no response with a
subset of the rows is produced. -/
theorem decode_failure_aborts_assembly
    (ps : String → Except ErrMsg AvroSchema)
    (fad : AvroSchema → List Nat → Except ErrMsg Value)
    (pb : QueryResponsePb) (aS : AvroSchema) (raw : List Nat) (e0 : ErrMsg)
    (hne : ¬ pb.schema_content = "")
    (hps : ps pb.schema_content = .ok aS)
    (hmem : raw ∈ pb.rows)
    (hfail : ∀ n, (parse_one_row fad aS raw (Row.with_column_num n)).1 = .error e0) :
    ∃ e, queryResponseTryFrom ps fad pb = .error e := by
  rcases hsch : Schema.tryFromAvro aS with e | sch
  · exact ⟨.Unknown e, by simp [queryResponseTryFrom, hne, hps, hsch]⟩
  · obtain ⟨e, he⟩ :=
      assemble_rows_err fad aS sch.num_cols raw e0 (hfail sch.num_cols) pb.rows hmem
    exact ⟨e, by simp [queryResponseTryFrom, hne, hps, hsch, he]⟩

/-- Witness for C7: a two-column schema with two buffers where the
second buffer decodes to a non-record value; the assembly errors even
though the first buffer decodes cleanly. -/
theorem decode_failure_aborts_assembly_witness :
    ∃ e, queryResponseTryFrom
        (fun _ => .ok (.record "t" [("a", .long)] [("a", 0)]))
        (fun _ raw => if raw = [1] then .ok (.long 7) else .ok (.record [("a", .long 7)]))
        { header := { code := 200, error := "" },
          schema_content := "sc", rows := [[0], [1]], affected_rows := 0 } =
      .error e :=
  decode_failure_aborts_assembly
    (fun _ => .ok (.record "t" [("a", .long)] [("a", 0)]))
    (fun _ raw => if raw = [1] then .ok (.long 7) else .ok (.record [("a", .long 7)]))
    { header := { code := 200, error := "" },
      schema_content := "sc", rows := [[0], [1]], affected_rows := 0 }
    (.record "t" [("a", .long)] [("a", 0)]) [1] "invalid avro row, expect record"
    (by simp) rfl (by simp) (fun n => rfl)

/-- Counterexample to C5 as stated: a decoded record whose second
column is composite (an array) makes the row decoder fail, but the
`Row` out-parameter IS left holding the partial datum sequence decoded
before the failing column (`[Int32 1]`, not the empty row it started
from). -/
theorem row_decoder_retains_prefix_on_error :
    (parse_one_row (fun _ _ => .ok (.record [("a", .int 1), ("b", .array [])]))
        .null [] (Row.with_column_num 2)).1 = .error "Unsupported value type" ∧
    (parse_one_row (fun _ _ => .ok (.record [("a", .int 1), ("b", .array [])]))
        .null [] (Row.with_column_num 2)).2.datums = [.Int32 1] ∧
    ([Datum.Int32 1] : List Datum) ≠ [] :=
  ⟨rfl, rfl, by decide⟩

/-- C5 amended: a composite column value makes the row decoder return
an error (the out-parameter may retain the datums converted before the
failing column), and no partial row is ever surfaced: every row of a
successfully assembled response is the result of one fully successful
buffer decode. -/
theorem composite_value_aborts_row_no_partial_surfaced :
    (∀ (fad : AvroSchema → List Nat → Except ErrMsg Value)
       (aS : AvroSchema) (raw : List Nat) (cols : List (String × Value)) (row0 : Row),
       fad aS raw = .ok (.record cols) →
       (∃ c ∈ cols, c.2.isComposite = true) →
       ∃ e r, parse_one_row fad aS raw row0 = (.error e, r)) ∧
    (∀ (ps : String → Except ErrMsg AvroSchema)
       (fad : AvroSchema → List Nat → Except ErrMsg Value)
       (pb : QueryResponsePb) (resp : QueryResponse),
       queryResponseTryFrom ps fad pb = .ok resp →
       ∀ r ∈ resp.rows, ∃ aS raw, ps pb.schema_content = .ok aS ∧ raw ∈ pb.rows ∧
         parse_one_row fad aS raw (Row.with_column_num resp.schema.num_cols)
           = (.ok (), r)) := by
  constructor
  · intro fad aS raw cols row0 hfad hcomp
    obtain ⟨e, r, hr⟩ := pushDatums_err cols hcomp row0
    refine ⟨e, r, ?_⟩
    unfold parse_one_row
    rw [hfad]
    exact hr
  · intro ps fad pb resp hok r hr
    by_cases hne : pb.schema_content = ""
    · have : queryResponseTryFrom ps fad pb =
          .ok { schema := Schema.default, rows := [], affected_rows := pb.affected_rows } := by
        simp [queryResponseTryFrom, hne]
      rw [this] at hok
      injection hok with hok
      rw [← hok] at hr
      simp at hr
    · obtain ⟨aS, hps, _, hrows, _⟩ := queryResponseTryFrom_ok hne hok
      obtain ⟨raw, hraw, hparse⟩ :=
        assemble_rows_mem fad aS resp.schema.num_cols pb.rows resp.rows hrows r hr
      exact ⟨aS, raw, hps, hraw, hparse⟩

/-- Witness for amended C5: a record with one array column errors out
of the decoder, and the (empty-schema) assembled response of a trivial
reply surfaces only fully decoded rows (vacuously, it has none). -/
theorem composite_value_aborts_row_no_partial_surfaced_witness :
    (∃ e r, parse_one_row (fun _ _ => .ok (.record [("xs", .array [])]))
        .null [] (Row.with_column_num 1) = (.error e, r)) ∧
    (∀ r ∈ ([] : List Row),
      ∃ aS raw, (.error "no parse" : Except ErrMsg AvroSchema) = .ok aS ∧
        raw ∈ ([] : List (List Nat)) ∧
        parse_one_row (fun _ _ => .ok (.record [("xs", .array [])])) aS raw
          (Row.with_column_num 0) = (.ok (), r)) :=
  ⟨composite_value_aborts_row_no_partial_surfaced.1
      (fun _ _ => .ok (.record [("xs", .array [])])) .null [] [("xs", .array [])]
      (Row.with_column_num 1) rfl ⟨("xs", .array []), by simp, rfl⟩,
   composite_value_aborts_row_no_partial_surfaced.2 (fun _ => .error "no parse")
      (fun _ _ => .ok (.record [("xs", .array [])]))
      { header := { code := 200, error := "" },
        schema_content := "", rows := [], affected_rows := 4 }
      { schema := Schema.default, rows := [], affected_rows := 4 } rfl⟩

/-- C2: on a non-empty schema whose decoder honours the schema arity
(every decoded record has one column per schema field), a successful
assembly yields exactly one output row per input buffer, output row `i`
being the decode of input buffer `i`; each row holds exactly
`num_cols` datums, datum `j` being the conversion of decoded column `j`
(declared field order). -/
theorem assembly_count_order_arity
    (ps : String → Except ErrMsg AvroSchema)
    (fad : AvroSchema → List Nat → Except ErrMsg Value)
    (pb : QueryResponsePb) (nm : String) (fs : List (String × AvroSchema))
    (lk : List (String × Nat)) (resp : QueryResponse)
    (hne : ¬ pb.schema_content = "")
    (hps : ps pb.schema_content = .ok (.record nm fs lk))
    (harity : ∀ raw cols, raw ∈ pb.rows →
       fad (.record nm fs lk) raw = .ok (.record cols) → cols.length = fs.length)
    (hok : queryResponseTryFrom ps fad pb = .ok resp) :
    resp.rows.length = pb.rows.length ∧
    (∀ i (h1 : i < pb.rows.length) (h2 : i < resp.rows.length),
       parse_one_row fad (.record nm fs lk) (pb.rows.get ⟨i, h1⟩)
         (Row.with_column_num resp.schema.num_cols) = (.ok (), resp.rows.get ⟨i, h2⟩)) ∧
    (∀ i (h2 : i < resp.rows.length),
       (resp.rows.get ⟨i, h2⟩).datums.length = resp.schema.num_cols) ∧
    (∀ i (h1 : i < pb.rows.length) (h2 : i < resp.rows.length)
       (cols : List (String × Value)),
       fad (.record nm fs lk) (pb.rows.get ⟨i, h1⟩) = .ok (.record cols) →
       ∀ j (hj : j < cols.length) (hj2 : j < (resp.rows.get ⟨i, h2⟩).datums.length),
         value_to_datum ((cols.get ⟨j, hj⟩).2) =
           .ok ((resp.rows.get ⟨i, h2⟩).datums.get ⟨j, hj2⟩)) := by
  obtain ⟨aS, hps', hsch, hrows, _⟩ := queryResponseTryFrom_ok hne hok
  rw [hps] at hps'
  injection hps' with hps'
  subst hps'
  obtain ⟨hlk, hnum, hbuild, hnames⟩ := tryFromAvro_record_ok hsch
  obtain ⟨hlen, halign⟩ :=
    assemble_rows_ok fad _ resp.schema.num_cols pb.rows resp.rows hrows
  refine ⟨hlen, fun i h1 h2 => halign i h1 h2, ?_, ?_⟩
  · intro i h2
    have h1 : i < pb.rows.length := by rw [← hlen]; exact h2
    obtain ⟨cols, hfad, hpush⟩ := parse_one_row_ok (halign i h1 h2)
    obtain ⟨ds, hds, hdlen, _⟩ :=
      pushDatums_ok cols (Row.with_column_num resp.schema.num_cols) _ hpush
    simp only [Row.with_column_num, List.nil_append] at hds
    rw [hds, hdlen, harity _ cols (List.get_mem pb.rows i h1) hfad, hnum]
  · intro i h1 h2 cols hfad j hj hj2
    obtain ⟨cols', hfad', hpush⟩ := parse_one_row_ok (halign i h1 h2)
    rw [hfad] at hfad'
    injection hfad' with hfad'
    injection hfad' with hfad'
    subst hfad'
    obtain ⟨ds, hds, hdlen, hdalign⟩ :=
      pushDatums_ok cols (Row.with_column_num resp.schema.num_cols) _ hpush
    simp only [Row.with_column_num, List.nil_append] at hds
    subst hds
    exact hdalign j hj hj2

/-- Witness for C2 (the spec scenario): schema
`record{ts: nullable timestamp-millis, value: double}` with two row
buffers decoding to `{present(1000), 3.14-bits}` each; the assembly
yields two aligned two-datum rows. -/
theorem assembly_count_order_arity_witness :
    ([Row.mk [.Timestamp 1000, .Double 314],
      Row.mk [.Timestamp 1000, .Double 314]].length = [[(0 : Nat)], [1]].length) ∧
    (∀ i (h2 : i < [Row.mk [.Timestamp 1000, .Double 314],
        Row.mk [.Timestamp 1000, .Double 314]].length),
      ([Row.mk [.Timestamp 1000, .Double 314],
        Row.mk [.Timestamp 1000, .Double 314]].get ⟨i, h2⟩).datums.length = 2) := by
  have h := assembly_count_order_arity
    (fun _ => .ok (.record "t"
      [("ts", .union [.null, .timestampMillis]), ("value", .double)]
      [("ts", 0), ("value", 1)]))
    (fun _ _ => .ok (.record
      [("ts", .union (.timestampMillis 1000)), ("value", .double 314)]))
    { header := { code := 200, error := "" },
      schema_content := "sc", rows := [[0], [1]], affected_rows := 0 }
    "t" [("ts", .union [.null, .timestampMillis]), ("value", .double)]
    [("ts", 0), ("value", 1)]
    { schema := { column_schemas := [{ data_type := .TimestampMillis, name := "ts" },
                                     { data_type := .Double, name := "value" }],
                  lookup := [("ts", 0), ("value", 1)] },
      rows := [Row.mk [.Timestamp 1000, .Double 314],
               Row.mk [.Timestamp 1000, .Double 314]],
      affected_rows := 0 }
    (by simp) rfl
    (by
      intro raw cols _ hf
      injection hf with hf
      injection hf with hf
      subst hf
      rfl)
    rfl
  exact ⟨h.1, fun i h2 => h.2.2.1 i h2⟩

/-- C9: a Schema built from a record whose library lookup is canonical
(each field name maps to its own index, and only field names map) has a
`col_idx` bijective onto the valid column indices: every column's name
maps to its index, anything mapping to `i` is the name of column `i`,
and no index is reached from two names. (Mutation cannot arise: the
embedding is purely functional, matching the read-only use in the
source.) -/
theorem schema_lookup_bijection
    (nm : String) (fs : List (String × AvroSchema)) (lk : List (String × Nat))
    (sch : Schema)
    (h : Schema.tryFromAvro (.record nm fs lk) = .ok sch)
    (hc1 : ∀ i (hi : i < fs.length), lkFind lk ((fs.get ⟨i, hi⟩).1) = some i)
    (hc2 : ∀ name i, lkFind lk name = some i →
       ∃ hi : i < fs.length, (fs.get ⟨i, hi⟩).1 = name) :
    sch.num_cols = fs.length ∧
    (∀ i (hi : i < sch.num_cols),
       sch.col_idx ((sch.column_schemas.get ⟨i, hi⟩).name) = some i) ∧
    (∀ name i, sch.col_idx name = some i →
       ∃ hi : i < sch.num_cols, (sch.column_schemas.get ⟨i, hi⟩).name = name) ∧
    (∀ n1 n2 i, sch.col_idx n1 = some i → sch.col_idx n2 = some i → n1 = n2) := by
  obtain ⟨hlk, hnum, _, hnames⟩ := tryFromAvro_record_ok h
  have hidx : ∀ name i, sch.col_idx name = some i →
      ∃ hi : i < sch.num_cols, (sch.column_schemas.get ⟨i, hi⟩).name = name := by
    intro name i hcol
    rw [Schema.col_idx, hlk] at hcol
    obtain ⟨hi, hnm⟩ := hc2 name i hcol
    have hi' : i < sch.num_cols := by rw [hnum]; exact hi
    refine ⟨hi', ?_⟩
    rw [hnames i hi hi']
    exact hnm
  refine ⟨hnum, ?_, hidx, ?_⟩
  · intro i hi
    have hi' : i < fs.length := by rw [← hnum]; exact hi
    rw [Schema.col_idx, hlk, hnames i hi' hi]
    exact hc1 i hi'
  · intro n1 n2 i h1 h2
    obtain ⟨hi1, hn1⟩ := hidx n1 i h1
    obtain ⟨hi2, hn2⟩ := hidx n2 i h2
    rw [← hn1, ← hn2]

/-- Witness for C9: the two-column record `{ts: long, value: double}`
with the canonical lookup `[("ts",0),("value",1)]`. -/
theorem schema_lookup_bijection_witness :
    (({ column_schemas := [{ data_type := .Int64, name := "ts" },
                           { data_type := .Double, name := "value" }],
        lookup := [("ts", 0), ("value", 1)] } : Schema).num_cols = 2) ∧
    (∀ i (hi : i < ({ column_schemas := [{ data_type := .Int64, name := "ts" },
                                         { data_type := .Double, name := "value" }],
                      lookup := [("ts", 0), ("value", 1)] } : Schema).num_cols),
      ({ column_schemas := [{ data_type := .Int64, name := "ts" },
                            { data_type := .Double, name := "value" }],
         lookup := [("ts", 0), ("value", 1)] } : Schema).col_idx
        ((({ column_schemas := [{ data_type := .Int64, name := "ts" },
                                { data_type := .Double, name := "value" }],
             lookup := [("ts", 0), ("value", 1)] } : Schema).column_schemas.get
          ⟨i, hi⟩).name) = some i) ∧
    (∀ name i,
      ({ column_schemas := [{ data_type := .Int64, name := "ts" },
                            { data_type := .Double, name := "value" }],
         lookup := [("ts", 0), ("value", 1)] } : Schema).col_idx name = some i →
      ∃ hi : i < ({ column_schemas := [{ data_type := .Int64, name := "ts" },
                                       { data_type := .Double, name := "value" }],
                    lookup := [("ts", 0), ("value", 1)] } : Schema).num_cols,
        (({ column_schemas := [{ data_type := .Int64, name := "ts" },
                               { data_type := .Double, name := "value" }],
            lookup := [("ts", 0), ("value", 1)] } : Schema).column_schemas.get
          ⟨i, hi⟩).name = name) ∧
    (∀ n1 n2 i,
      ({ column_schemas := [{ data_type := .Int64, name := "ts" },
                            { data_type := .Double, name := "value" }],
         lookup := [("ts", 0), ("value", 1)] } : Schema).col_idx n1 = some i →
      ({ column_schemas := [{ data_type := .Int64, name := "ts" },
                            { data_type := .Double, name := "value" }],
         lookup := [("ts", 0), ("value", 1)] } : Schema).col_idx n2 = some i →
      n1 = n2) := by
  have h := schema_lookup_bijection "t" [("ts", .long), ("value", .double)]
    [("ts", 0), ("value", 1)]
    { column_schemas := [{ data_type := .Int64, name := "ts" },
                         { data_type := .Double, name := "value" }],
      lookup := [("ts", 0), ("value", 1)] }
    rfl (by decide)
    (by
      intro name i hf
      by_cases hts : "ts" = name
      · subst hts
        have : i = 0 := by
          simpa [lkFind] using hf.symm
        subst this
        exact ⟨by decide, rfl⟩
      · by_cases hval : "value" = name
        · subst hval
          have : i = 1 := by
            simpa [lkFind, hts] using hf.symm
          subst this
          exact ⟨by decide, rfl⟩
        · exact absurd hf (by simp [lkFind, hts, hval]))
  exact h

end HoraedbClient
